import Mathlib

/-!
Verification of the MediaInfo text parser (`src/mediainfo.ts`).

The embedding works over `List Char` (one list per input line).  JavaScript
numbers are idealised as exact decimal fractions (`Dec10`, value
`num / 10 ^ exp` — every numeric token in a report denotes one); the `NaN`
sentinel produced by a failed `parseFloat`/`parseInt` is modelled by `none`
in `Option`-wrapped numeric types (`JsInt`, `JsFloat`), and `NaN`
propagation through arithmetic is explicit (`jsiAdd`, `jsiMul`).  A record
field the parser never wrote is `none` at the outer `Option` layer; a field
written with a `NaN` value is `some none`.  `Math.round` is embedded as
Euclidean division (`jsRoundD`) and proved equal to `⌊x + 1/2⌋` on rational
values (`jsRoundD_eq_floor`).  `Date` values are modelled abstractly by the
raw input string, since no claim inspects date parsing.  Whitespace classes
use the ASCII part of JS `\s`, which covers everything a MediaInfo report
contains.
-/

namespace MiParser

/-- JS `\s` whitespace class (ASCII part, as produced by MediaInfo reports). -/
def isWs (c : Char) : Bool :=
  c = ' ' || c = '\t' || c = '\n' || c = '\r' || c = '\x0b' || c = '\x0c'

/-- `l` starts with the list `p`. -/
def startsWithL (l p : List Char) : Bool :=
  l.take p.length = p

/-- `pat` occurs as a contiguous substring of `l` (JS `String.includes`). -/
def containsSub (pat : List Char) : List Char → Bool
  | [] => pat.isEmpty
  | c :: rest => startsWithL (c :: rest) pat || containsSub pat rest

/-- Split on a character predicate, keeping empty groups (JS `String.split`). -/
def splitOnP (p : Char → Bool) : List Char → List (List Char)
  | [] => [[]]
  | c :: rest =>
    if p c then [] :: splitOnP p rest
    else
      match splitOnP p rest with
      | g :: gs => (c :: g) :: gs
      | [] => [[c]]

/-- JS `String.split(sep)` for a single-character separator. -/
def splitOnChar (sep : Char) (l : List Char) : List (List Char) :=
  splitOnP (fun c => c = sep) l

/-- JS `String.trim`. -/
def trimChars (l : List Char) : List Char :=
  ((l.dropWhile isWs).reverse.dropWhile isWs).reverse

/-- Strip all whitespace (JS `replace(/\s/g, '')`). -/
def removeWsL (l : List Char) : List Char :=
  l.filter (fun c => !isWs c)

/-- Numeric value of a digit string. -/
def natFromDigits (l : List Char) : Nat :=
  l.foldl (fun acc c => 10 * acc + (c.toNat - 48)) 0

/-- An exact decimal fraction `num / 10 ^ exp`.  Every numeric string the
parser meets denotes such a value, so this models JS numbers exactly while
staying kernel-computable (rational normalisation is not). -/
structure Dec10 where
  num : Int
  exp : Nat
deriving DecidableEq, Repr

/-- The rational value of a decimal fraction. -/
def Dec10.toRat (d : Dec10) : ℚ := (d.num : ℚ) / (10 : ℚ) ^ d.exp

/-- Multiply a decimal fraction by an integer. -/
def Dec10.mulInt (d : Dec10) (z : Int) : Dec10 := ⟨d.num * z, d.exp⟩

/-- A JS number that may be the `NaN` sentinel, after rounding to an integer. -/
abbrev JsInt := Option Int

/-- A JS number that may be the `NaN` sentinel. -/
abbrev JsFloat := Option Dec10

/-- NaN-propagating addition. -/
def jsiAdd (a b : JsInt) : JsInt :=
  match a, b with
  | some x, some y => some (x + y)
  | _, _ => none

/-- NaN-propagating multiplication. -/
def jsiMul (a b : JsInt) : JsInt :=
  match a, b with
  | some x, some y => some (x * y)
  | _, _ => none

/-- JS `Math.round` on a decimal fraction: `⌊x + 1/2⌋`, computed by Euclidean
division so that the kernel can evaluate it (see `jsRoundD_eq_floor`). -/
def jsRoundD (d : Dec10) : Int :=
  Int.ediv (2 * d.num + 10 ^ d.exp) (2 * 10 ^ d.exp)

/-- JS `parseInt(s, 10)`: optional sign then a longest digit run; `NaN` if none. -/
def jsParseInt (l : List Char) : JsInt :=
  let l1 := l.dropWhile isWs
  let neg : Bool := l1.headD ' ' = '-'
  let l2 := if l1.headD ' ' = '-' || l1.headD ' ' = '+' then l1.tail else l1
  let ds := l2.takeWhile Char.isDigit
  if ds.isEmpty then none
  else some ((if neg then -1 else 1) * (natFromDigits ds : Int))

/-- JS `parseFloat`: optional sign, digits, optional fraction, optional exponent. -/
def jsParseFloat (l : List Char) : JsFloat :=
  let l1 := l.dropWhile isWs
  let neg : Bool := l1.headD ' ' = '-'
  let l2 := if l1.headD ' ' = '-' || l1.headD ' ' = '+' then l1.tail else l1
  let intDs := l2.takeWhile Char.isDigit
  let l3 := l2.drop intDs.length
  let fracDs := if l3.headD ' ' = '.' then l3.tail.takeWhile Char.isDigit else []
  let l4 := if l3.headD ' ' = '.' then l3.tail.drop fracDs.length else l3
  if intDs.isEmpty && fracDs.isEmpty then none
  else
    let mant : Int := (natFromDigits intDs * 10 ^ fracDs.length + natFromDigits fracDs : Nat)
    let mantS : Int := if neg then -mant else mant
    let expPart : Option Int :=
      if l4.headD ' ' = 'e' || l4.headD ' ' = 'E' then
        let l5 := l4.tail
        let l6 := if l5.headD ' ' = '-' || l5.headD ' ' = '+' then l5.tail else l5
        let eds := l6.takeWhile Char.isDigit
        if eds.isEmpty then none
        else some ((if l5.headD ' ' = '-' then -1 else 1) * (natFromDigits eds : Int))
      else none
    match expPart with
    | none => some ⟨mantS, fracDs.length⟩
    | some e =>
      if 0 ≤ e then some ⟨mantS * 10 ^ e.toNat, fracDs.length⟩
      else some ⟨mantS, fracDs.length + (-e).toNat⟩

/-- The `powers` table of `parseSize`, with the `|| 0` default folded in
(the JS object lookup on the lowercased unit). -/
def lookupPower (u : List Char) : Nat :=
  if u = "b".data then 0
  else if u = "kib".data then 1
  else if u = "mib".data then 2
  else if u = "gib".data then 3
  else if u = "tib".data then 4
  else if u = "kb".data then 1
  else if u = "mb".data then 2
  else if u = "gb".data then 3
  else if u = "tb".data then 4
  else 0

/-- `parseSize` from `src/mediainfo.ts`: split on single spaces, parse the
first part with commas stripped, look the lowercased second part up in the
power table, multiplier 1024 iff the unit contains `"ib"`. -/
def parseSizeL (l : List Char) : JsInt :=
  let parts := splitOnChar ' ' l
  let value := jsParseFloat ((parts.headD []).filter (fun c => c ≠ ','))
  let unit := (parts[1]?).map (List.map Char.toLower)
  let power : Nat :=
    match unit with
    | some u => lookupPower u
    | none => 0
  let multiplier : Int :=
    match unit with
    | some u => if containsSub "ib".data u then 1024 else 1000
    | none => 1000
  value.map (fun q => jsRoundD (q.mulInt (multiplier ^ power)))

def parseSize (s : String) : JsInt := parseSizeL s.data

/-- The loop body of `parseDuration`: pairs `(parts[i], parts[i+1])` with the
unit-token dispatch, accumulating milliseconds with NaN propagation. -/
def durLoop : List (List Char) → JsInt → JsInt
  | [], acc => acc
  | [_], acc => acc
  | p :: u :: rest, acc =>
    let v := jsParseInt p
    let acc2 :=
      if startsWithL u "h".data then jsiAdd acc (jsiMul v (some 3600000))
      else if startsWithL u "min".data then jsiAdd acc (jsiMul v (some 60000))
      else if startsWithL u "s".data then jsiAdd acc (jsiMul v (some 1000))
      else if startsWithL u "ms".data then jsiAdd acc v
      else acc
    durLoop rest acc2

/-- `parseDuration` from `src/mediainfo.ts`. -/
def parseDurationL (l : List Char) : JsInt :=
  durLoop (splitOnChar ' ' l) (some 0)

def parseDuration (s : String) : JsInt := parseDurationL s.data

/-- `parseBitRate` from `src/mediainfo.ts`. -/
def parseBitRateL (l : List Char) : JsInt :=
  let clean := (removeWsL l).map Char.toLower
  let value := jsParseFloat clean
  value.map (fun q =>
    if containsSub "mb/s".data clean then jsRoundD (q.mulInt (1000 * 1000))
    else if containsSub "kb/s".data clean then jsRoundD (q.mulInt 1000)
    else if containsSub "b/s".data clean then jsRoundD q
    else jsRoundD q)

def parseBitRate (s : String) : JsInt := parseBitRateL s.data

/-- `parseFrequency` from `src/mediainfo.ts`. -/
def parseFrequencyL (l : List Char) : JsInt :=
  let value := jsParseFloat (removeWsL l)
  let lower := l.map Char.toLower
  value.map (fun q =>
    if containsSub "khz".data lower then jsRoundD (q.mulInt 1000)
    else if containsSub "mhz".data lower then jsRoundD (q.mulInt (1000 * 1000))
    else jsRoundD q)

def parseFrequency (s : String) : JsInt := parseFrequencyL s.data

/-- `parseDate` delegates to the JS `Date` constructor; modelled abstractly
by the raw input string, since no claim inspects the calendar value. -/
abbrev JsDate := String

def parseDate (s : String) : JsDate := s

/-! ## Data model (`mediainfo.types.ts`) -/

structure GeneralTrack where
  uniqueId : Option String := none
  completeName : Option String := none
  format : Option String := none
  formatVersion : Option String := none
  fileSize : Option JsInt := none
  duration : Option JsInt := none
  overallBitRateMode : Option String := none
  overallBitRate : Option JsInt := none
  frameRate : Option JsFloat := none
  frameCount : Option JsInt := none
  streamSize : Option JsInt := none
  encodedDate : Option JsDate := none
  writingApplication : Option String := none
  writingLibrary : Option String := none
  attachments : Option String := none
deriving DecidableEq, Repr

structure VideoTrack where
  id : Option JsInt := none
  format : Option String := none
  formatInfo : Option String := none
  formatProfile : Option String := none
  formatSettings : Option String := none
  formatSettingsCabac : Option String := none
  formatSettingsReferenceFrames : Option String := none
  codecId : Option String := none
  duration : Option JsInt := none
  bitRateMode : Option String := none
  bitRate : Option JsInt := none
  maximumBitRate : Option JsInt := none
  width : Option JsInt := none
  height : Option JsInt := none
  displayAspectRatio : Option String := none
  frameRateMode : Option String := none
  frameRate : Option JsFloat := none
  colorSpace : Option String := none
  chromaSubsampling : Option String := none
  bitDepth : Option JsInt := none
  scanType : Option String := none
  bitsPerPixelFrame : Option JsFloat := none
  streamSize : Option JsInt := none
  default : Option Bool := none
  forced : Option Bool := none
deriving DecidableEq, Repr

structure AudioTrack where
  id : Option JsInt := none
  format : Option String := none
  formatSettings : Option String := none
  codecId : Option String := none
  duration : Option JsInt := none
  bitRateMode : Option String := none
  bitRate : Option JsInt := none
  channels : Option JsInt := none
  samplingRate : Option JsInt := none
  frameRate : Option JsFloat := none
  bitDepth : Option JsInt := none
  streamSize : Option JsInt := none
  language : Option String := none
  title : Option String := none
  default : Option Bool := none
  forced : Option Bool := none
deriving DecidableEq, Repr

structure TextTrack where
  id : Option JsInt := none
  format : Option String := none
  codecId : Option String := none
  codecIdInfo : Option String := none
  duration : Option JsInt := none
  bitRate : Option JsInt := none
  frameRate : Option JsFloat := none
  countOfElements : Option JsInt := none
  compressionMode : Option String := none
  streamSize : Option JsInt := none
  language : Option String := none
  title : Option String := none
  default : Option Bool := none
  forced : Option Bool := none
deriving DecidableEq, Repr

structure Chapter where
  timestamp : JsInt
  title : String
deriving DecidableEq, Repr

structure MediaInfo where
  general : GeneralTrack
  video : List VideoTrack
  audio : List AudioTrack
  text : List TextTrack
  menu : List Chapter
deriving DecidableEq, Repr

/-! ## Line classifiers -/

/-- The optional ordinal tail of a section header: empty, or a literal
`" #"` followed by one or more digits (regex `(?: #\d+)?$`). -/
def ordTail (r : List Char) : Bool :=
  match r with
  | [] => true
  | c1 :: c2 :: ds => c1 = ' ' && c2 = '#' && !ds.isEmpty && ds.all Char.isDigit
  | _ => false

/-- Section-header match `^(General|Video|Audio|Text|Menu)(?: #\d+)?$`,
returning the lowercased section name. -/
def sectionHeaderOf (l : List Char) : Option String :=
  if startsWithL l "General".data && ordTail (l.drop 7) then some "general"
  else if startsWithL l "Video".data && ordTail (l.drop 5) then some "video"
  else if startsWithL l "Audio".data && ordTail (l.drop 5) then some "audio"
  else if startsWithL l "Text".data && ordTail (l.drop 4) then some "text"
  else if startsWithL l "Menu".data && ordTail (l.drop 4) then some "menu"
  else none

/-- JS regex `.` (anything but a line terminator). -/
def isRegexDot (c : Char) : Bool :=
  c ≠ '\n' && c ≠ '\r' && c ≠ '\u2028' && c ≠ '\u2029'

/-- Tail of the chapter regex after the 12-character timestamp:
`\s+:\s+.*?:(.*)`.  Returns capture group 2 on success.  The lazy `.*?`
matches up to the first colon after the separator (and cannot cross a line
terminator); the greedy `(.*)` then runs to the end of the line. -/
def chapterTailMatch (rest : List Char) : Option (List Char) :=
  let ws1 := rest.takeWhile isWs
  if ws1.isEmpty then none
  else
    match rest.drop ws1.length with
    | ':' :: r2 =>
      let ws2 := r2.takeWhile isWs
      if ws2.isEmpty then none
      else
        let r3 := r2.drop ws2.length
        let seg := r3.takeWhile (fun c => c ≠ ':')
        if seg.length = r3.length then none
        else if seg.any (fun c => !isRegexDot c) then none
        else some ((r3.drop (seg.length + 1)).takeWhile isRegexDot)
    | _ => none

/-- Match of `(\d{2}:\d{2}:\d{2}.\d{3})\s+:\s+.*?:(.*)` anchored at the head
of `l` (the `.` between seconds and milliseconds is the unescaped regex
wildcard, exactly as in the source).  Returns (group 1, group 2). -/
def chapterAt (l : List Char) : Option (List Char × List Char) :=
  match l with
  | a1 :: a2 :: s1 :: b1 :: b2 :: s2 :: c1 :: c2 :: sep :: d1 :: d2 :: d3 :: rest =>
    if a1.isDigit && a2.isDigit && s1 = ':' && b1.isDigit && b2.isDigit && s2 = ':'
        && c1.isDigit && c2.isDigit && isRegexDot sep && d1.isDigit && d2.isDigit
        && d3.isDigit then
      match chapterTailMatch rest with
      | some g2 => some ([a1, a2, s1, b1, b2, s2, c1, c2, sep, d1, d2, d3], g2)
      | none => none
    else none
  | _ => none

/-- Unanchored (leftmost-match) search for the chapter pattern. -/
def findChapter : List Char → Option (List Char × List Char)
  | [] => none
  | c :: rest =>
    match chapterAt (c :: rest) with
    | some r => some r
    | none => findChapter rest

/-- Timestamp of a matched chapter: split group 1 on `[:.]` and combine the
first four parts (a missing or unparseable part yields `NaN`). -/
def chapterTimestamp (ts : List Char) : JsInt :=
  let ps := splitOnP (fun c => c = ':' || c = '.') ts
  let g : Nat → JsInt := fun i =>
    match ps[i]? with
    | some p => jsParseInt p
    | none => none
  jsiAdd (jsiAdd (jsiAdd (jsiMul (g 0) (some 3600000)) (jsiMul (g 1) (some 60000)))
    (jsiMul (g 2) (some 1000))) (g 3)

/-- Key-value match `^\s*([^:]+?)\s+:\s+(.*)$` followed by trimming both
groups.  The regex can only ever match at the first colon of the line, the
character before that colon must be whitespace preceded by at least one more
character, at least one whitespace must follow the colon, and the greedy
`(.*)` must reach the end of the line without crossing a line terminator.
Returns the trimmed key and value. -/
def kvSplitL (l : List Char) : Option (List Char × List Char) :=
  let left := l.takeWhile (fun c => c ≠ ':')
  if left.length = l.length then none
  else
    let right := l.drop (left.length + 1)
    if 2 ≤ left.length && isWs (left.getLastD 'x') && isWs (right.headD 'x')
        && !((right.dropWhile isWs).any (fun c => c = '\r' || c = '\n')) then
      some (trimChars left, trimChars right)
    else none

/-- The extraction regex `(\d+\.?\d*\s+[A-Za-z]+)` of the `Stream size`
cases, anchored at the head of `l`. -/
def sizeMatchAt (l : List Char) : Option (List Char) :=
  let ds := l.takeWhile Char.isDigit
  if ds.isEmpty then none
  else
    let r1 := l.drop ds.length
    let tailMatch := fun (mid rest : List Char) =>
      let ws := rest.takeWhile isWs
      if ws.isEmpty then none
      else
        let r3 := rest.drop ws.length
        let ls := r3.takeWhile Char.isAlpha
        if ls.isEmpty then none else some (ds ++ mid ++ ws ++ ls)
    match r1 with
    | '.' :: r2 =>
      let fs := r2.takeWhile Char.isDigit
      tailMatch ('.' :: fs) (r2.drop fs.length)
    | _ => tailMatch [] r1

/-- Leftmost match of the `Stream size` extraction regex. -/
def sizeExtract : List Char → Option (List Char)
  | [] => none
  | c :: rest =>
    match sizeMatchAt (c :: rest) with
    | some g => some g
    | none => sizeExtract rest

/-! ## Section-scoped field mappers -/

/-- The `general` section key dispatch. -/
def generalMap (key value : String) (t : GeneralTrack) : GeneralTrack :=
  if key = "Unique ID" then { t with uniqueId := some value }
  else if key = "Complete name" then { t with completeName := some value }
  else if key = "Format" then { t with format := some value }
  else if key = "Format version" then { t with formatVersion := some value }
  else if key = "File size" then { t with fileSize := some (parseSize value) }
  else if key = "Duration" then { t with duration := some (parseDuration value) }
  else if key = "Overall bit rate mode" then { t with overallBitRateMode := some value }
  else if key = "Overall bit rate" then { t with overallBitRate := some (parseBitRate value) }
  else if key = "Frame rate" then { t with frameRate := some (jsParseFloat value.data) }
  else if key = "Encoded date" then { t with encodedDate := some (parseDate value) }
  else if key = "Writing application" then { t with writingApplication := some value }
  else if key = "Writing library" then { t with writingLibrary := some value }
  else if key = "Attachments" then { t with attachments := some value }
  else t

/-- The `video` section key dispatch. -/
def videoMap (key value : String) (t : VideoTrack) : VideoTrack :=
  if key = "ID" then { t with id := some (jsParseInt value.data) }
  else if key = "Format" then { t with format := some value }
  else if key = "Format/Info" then { t with formatInfo := some value }
  else if key = "Format profile" then { t with formatProfile := some value }
  else if key = "Format settings" then { t with formatSettings := some value }
  else if key = "Format settings, CABAC" then { t with formatSettingsCabac := some value }
  else if key = "Format settings, Reference frames" then
    { t with formatSettingsReferenceFrames := some value }
  else if key = "Codec ID" then { t with codecId := some value }
  else if key = "Duration" then { t with duration := some (parseDuration value) }
  else if key = "Bit rate mode" then { t with bitRateMode := some value }
  else if key = "Bit rate" then { t with bitRate := some (parseBitRate value) }
  else if key = "Maximum bit rate" then { t with maximumBitRate := some (parseBitRate value) }
  else if key = "Width" then { t with width := some (jsParseInt (removeWsL value.data)) }
  else if key = "Height" then { t with height := some (jsParseInt (removeWsL value.data)) }
  else if key = "Display aspect ratio" then { t with displayAspectRatio := some value }
  else if key = "Frame rate mode" then { t with frameRateMode := some value }
  else if key = "Frame rate" then { t with frameRate := some (jsParseFloat value.data) }
  else if key = "Color space" then { t with colorSpace := some value }
  else if key = "Chroma subsampling" then { t with chromaSubsampling := some value }
  else if key = "Bit depth" then { t with bitDepth := some (jsParseInt value.data) }
  else if key = "Scan type" then { t with scanType := some value }
  else if key = "Bits/(Pixel*Frame)" then { t with bitsPerPixelFrame := some (jsParseFloat value.data) }
  else if key = "Stream size" then
    match sizeExtract value.data with
    | some g => { t with streamSize := some (parseSizeL g) }
    | none => t
  else if key = "Default" then { t with default := some (value.data.map Char.toLower = "yes".data) }
  else if key = "Forced" then { t with forced := some (value.data.map Char.toLower = "yes".data) }
  else t

/-- The `audio` section key dispatch. -/
def audioMap (key value : String) (t : AudioTrack) : AudioTrack :=
  if key = "ID" then { t with id := some (jsParseInt value.data) }
  else if key = "Format" then { t with format := some value }
  else if key = "Format settings" then { t with formatSettings := some value }
  else if key = "Codec ID" then { t with codecId := some value }
  else if key = "Duration" then { t with duration := some (parseDuration value) }
  else if key = "Bit rate mode" then { t with bitRateMode := some value }
  else if key = "Bit rate" then { t with bitRate := some (parseBitRate value) }
  else if key = "Channel(s)" then { t with channels := some (jsParseInt value.data) }
  else if key = "Sampling rate" then { t with samplingRate := some (parseFrequency value) }
  else if key = "Frame rate" then { t with frameRate := some (jsParseFloat value.data) }
  else if key = "Bit depth" then { t with bitDepth := some (jsParseInt value.data) }
  else if key = "Stream size" then
    match sizeExtract value.data with
    | some g => { t with streamSize := some (parseSizeL g) }
    | none => t
  else if key = "Title" then { t with title := some value }
  else if key = "Language" then { t with language := some value }
  else if key = "Default" then { t with default := some (value.data.map Char.toLower = "yes".data) }
  else if key = "Forced" then { t with forced := some (value.data.map Char.toLower = "yes".data) }
  else t

/-- The `text` section key dispatch. -/
def textMap (key value : String) (t : TextTrack) : TextTrack :=
  if key = "ID" then { t with id := some (jsParseInt value.data) }
  else if key = "Format" then { t with format := some value }
  else if key = "Codec ID" then { t with codecId := some value }
  else if key = "Codec ID/Info" then { t with codecIdInfo := some value }
  else if key = "Duration" then { t with duration := some (parseDuration value) }
  else if key = "Bit rate" then { t with bitRate := some (parseBitRate value) }
  else if key = "Frame rate" then { t with frameRate := some (jsParseFloat value.data) }
  else if key = "Count of elements" then { t with countOfElements := some (jsParseInt value.data) }
  else if key = "Compression mode" then { t with compressionMode := some value }
  else if key = "Stream size" then
    match sizeExtract value.data with
    | some g => { t with streamSize := some (parseSizeL g) }
    | none => t
  else if key = "Title" then { t with title := some value }
  else if key = "Language" then { t with language := some value }
  else if key = "Default" then { t with default := some (value.data.map Char.toLower = "yes".data) }
  else if key = "Forced" then { t with forced := some (value.data.map Char.toLower = "yes".data) }
  else t

/-! ## Parse driver -/

/-- Replace the element at an index, when in range. -/
def modifyIdx (f : α → α) : Nat → List α → List α
  | _, [] => []
  | 0, x :: xs => f x :: xs
  | n + 1, x :: xs => x :: modifyIdx f n xs

/-- Scan state of the driver: accumulated result, current section name
(`""` when unset), current track index. -/
structure ScanState where
  result : MediaInfo
  currentSection : String
  trackIndex : Int
deriving DecidableEq, Repr

def initState : ScanState :=
  { result := { general := {}, video := [], audio := [], text := [], menu := [] }
    currentSection := ""
    trackIndex := -1 }

/-- Dispatch a matched key-value pair according to the current section
(the `if (currentSection === ...)` chain of the source). -/
def applyKV (st : ScanState) (key value : String) : ScanState :=
  if st.currentSection = "general" then
    { st with result := { st.result with general := generalMap key value st.result.general } }
  else if st.currentSection = "video" && 0 ≤ st.trackIndex then
    { st with result :=
        { st.result with video := modifyIdx (videoMap key value) st.trackIndex.toNat st.result.video } }
  else if st.currentSection = "audio" && 0 ≤ st.trackIndex then
    { st with result :=
        { st.result with audio := modifyIdx (audioMap key value) st.trackIndex.toNat st.result.audio } }
  else if st.currentSection = "text" && 0 ≤ st.trackIndex then
    { st with result :=
        { st.result with text := modifyIdx (textMap key value) st.trackIndex.toNat st.result.text } }
  else st

/-- One iteration of the driver's `for (const line of lines)` loop. -/
def processLine (st : ScanState) (line : List Char) : ScanState :=
  if line.all isWs then { st with currentSection := "" }
  else
    match sectionHeaderOf line with
    | some name =>
      let r := st.result
      let r2 :=
        if name = "video" then { r with video := r.video ++ [{}] }
        else if name = "audio" then { r with audio := r.audio ++ [{}] }
        else if name = "text" then { r with text := r.text ++ [{}] }
        else r
      let idx : Int :=
        if name = "general" || name = "menu" then -1
        else if name = "video" then (r2.video.length : Int) - 1
        else if name = "audio" then (r2.audio.length : Int) - 1
        else (r2.text.length : Int) - 1
      { result := r2, currentSection := name, trackIndex := idx }
    | none =>
      if st.currentSection = "menu" then
        match findChapter line with
        | some (ts, g2) =>
          { st with result :=
              { st.result with
                menu := st.result.menu ++ [⟨chapterTimestamp ts, String.mk (trimChars g2)⟩] } }
        | none => st
      else
        match kvSplitL line with
        | some (k, v) => applyKV st (String.mk k) (String.mk v)
        | none => st

/-- Fold the driver over the lines of the report. -/
def parseLines (lines : List (List Char)) : MediaInfo :=
  (lines.foldl processLine initState).result

/-- `parseMediaInfo` from `src/mediainfo.ts`. -/
def parseMediaInfo (text : String) : MediaInfo :=
  parseLines (splitOnChar '\n' text.data)

/-! ## Bridge: kernel-computable rounding equals real rounding -/

/-- `jsRoundD` is `⌊x + 1/2⌋` on the rational value of the fraction. -/
theorem jsRoundD_eq_floor (d : Dec10) : jsRoundD d = ⌊d.toRat + 1/2⌋ := by
  have h : d.toRat + 1/2 = ((2 * d.num + 10 ^ d.exp : Int) : ℚ) / ((2 * 10 ^ d.exp : Nat) : ℚ) := by
    rw [Dec10.toRat]
    push_cast
    rw [div_add_div _ _ (by positivity) (by norm_num), div_eq_div_iff (by positivity) (by positivity)]
    ring
  rw [jsRoundD, h, Rat.floor_intCast_div_natCast]
  push_cast
  rfl

/-- The rational value of `Dec10.mulInt`. -/
theorem Dec10.toRat_mulInt (d : Dec10) (z : Int) : (d.mulInt z).toRat = d.toRat * z := by
  simp only [Dec10.mulInt, Dec10.toRat]
  push_cast
  ring

/-! ## Claim-side (specification) definitions

These restate the unit tables exactly as the claims word them, to be compared
with the tables embedded from the source. -/

/-- The claim's power table over the lowercased unit:
B → 0, KiB/KB → 1, MiB/MB → 2, GiB/GB → 3, TiB/TB → 4, unknown → 0. -/
def claimPowerTable (lw : List Char) : Nat :=
  if lw = "b".data then 0
  else if lw = "kib".data || lw = "kb".data then 1
  else if lw = "mib".data || lw = "mb".data then 2
  else if lw = "gib".data || lw = "gb".data then 3
  else if lw = "tib".data || lw = "tb".data then 4
  else 0

/-- The claim's power for a unit (case-insensitive). -/
def claimSizePower (u : List Char) : Nat := claimPowerTable (u.map Char.toLower)

/-- The claim's multiplier: 1024 when the unit is binary-prefixed (contains
an `i`), 1000 otherwise. -/
def claimSizeMult (u : List Char) : Int :=
  if (u.map Char.toLower).contains 'i' then 1024 else 1000

/-- The source's multiplier/power pair agrees with the claim's on every unit
string (for unknown units both powers are 0, so the differing multiplier
conventions cannot be observed). -/
theorem sizeTable_agrees (lw : List Char) :
    (if containsSub "ib".data lw then (1024 : Int) else 1000) ^ lookupPower lw
      = (if lw.contains 'i' then (1024 : Int) else 1000) ^ claimPowerTable lw := by
  by_cases h1 : lw = "b".data
  · rw [h1]; decide
  by_cases h2 : lw = "kib".data
  · rw [h2]; decide
  by_cases h3 : lw = "mib".data
  · rw [h3]; decide
  by_cases h4 : lw = "gib".data
  · rw [h4]; decide
  by_cases h5 : lw = "tib".data
  · rw [h5]; decide
  by_cases h6 : lw = "kb".data
  · rw [h6]; decide
  by_cases h7 : lw = "mb".data
  · rw [h7]; decide
  by_cases h8 : lw = "gb".data
  · rw [h8]; decide
  by_cases h9 : lw = "tb".data
  · rw [h9]; decide
  simp [lookupPower, claimPowerTable, h1, h2, h3, h4, h5, h6, h7, h8, h9]

/-- The claim's per-token duration factor: 3600000 for a token starting with
`h`, 60000 for `min`, 1000 for `s` (with `min` checked first), 1 for `ms`,
0 for an unmatched token. -/
def claimDurFactor (u : List Char) : Int :=
  if startsWithL u "h".data then 3600000
  else if startsWithL u "min".data then 60000
  else if startsWithL u "s".data then 1000
  else if startsWithL u "ms".data then 1
  else 0

/-- Flatten a list of (number token, unit token) pairs back into the token
list the parser sees. -/
def interleavePairs : List (List Char × List Char) → List (List Char)
  | [] => []
  | p :: rest => p.1 :: p.2 :: interleavePairs rest

/-- The claim's duration value: sum over pairs of value times unit factor. -/
def claimDurSum : List (List Char × List Char) → Int
  | [] => 0
  | p :: rest => (jsParseInt p.1).getD 0 * claimDurFactor p.2 + claimDurSum rest

/-- The duration loop computes the claim's sum, for any starting
accumulator, as long as every value token parses as an integer. -/
theorem durLoop_interleave :
    ∀ (ps : List (List Char × List Char)) (n : Int),
      (∀ p ∈ ps, (jsParseInt p.1).isSome) →
      durLoop (interleavePairs ps) (some n) = some (n + claimDurSum ps) := by
  intro ps
  induction ps with
  | nil => intro n _; simp [interleavePairs, durLoop, claimDurSum]
  | cons p rest ih =>
    intro n h
    obtain ⟨v, hv⟩ := Option.isSome_iff_exists.mp (h p (List.mem_cons_self p rest))
    have hrest : ∀ x ∈ rest, (jsParseInt x.1).isSome :=
      fun x hx => h x (List.mem_cons_of_mem _ hx)
    simp only [interleavePairs, durLoop, claimDurSum, claimDurFactor, hv]
    split_ifs with hh hm hs hms <;>
      simp only [jsiAdd, jsiMul, Option.getD_some] <;>
      rw [ih _ hrest] <;> congr 1 <;> ring

/-! ## C1: end-to-end scenario -/

/-- The sample report of the end-to-end scenario. -/
def c1Input : String :=
  "General\nComplete name : /path/to/video.mp4\nFile size : 1.50 GiB\nDuration : 1 h 45 min 30 s\n\nVideo\nWidth : 1 920 pixels\nHeight : 1 080 pixels\nFrame rate : 23.976 FPS"

/-- C1: parsing the sample text with one General block (Complete name,
File size 1.50 GiB, Duration 1 h 45 min 30 s) and one Video block
(Width 1 920 pixels, Height 1 080 pixels, Frame rate 23.976 FPS) yields
completeName `/path/to/video.mp4`, fileSize 1610612736, duration 6330000,
video[0].width 1920 and video[0].height 1080. -/
theorem c1_end_to_end :
    (parseMediaInfo c1Input).general.completeName = some "/path/to/video.mp4" ∧
    (parseMediaInfo c1Input).general.fileSize = some (some 1610612736) ∧
    (parseMediaInfo c1Input).general.duration = some (some 6330000) ∧
    ((parseMediaInfo c1Input).video.headD {}).width = some (some 1920) ∧
    ((parseMediaInfo c1Input).video.headD {}).height = some (some 1080) := by
  decide

/-! ## C2: the size normalizer -/

/-- C2: for every well-formed size string (two space-separated parts whose
first part, commas stripped, parses as a number), `parseSize` returns
`round(value * multiplier ^ power)` with the claim's unit table: multiplier
1024 for binary-prefixed units, 1000 for decimal ones, power 0..4 per the
table and 0 for unknown units. -/
theorem c2_size_normalizer (s ns us : List Char) (q : Dec10)
    (hsplit : splitOnChar ' ' s = [ns, us])
    (hnum : jsParseFloat (ns.filter (fun c => c ≠ ',')) = some q) :
    parseSizeL s = some ⌊q.toRat * ((claimSizeMult us ^ claimSizePower us : Int) : ℚ) + 1/2⌋ := by
  rw [parseSizeL, hsplit]
  simp only [List.headD, List.getElem?_cons_succ, List.getElem?_cons_zero, Option.map_some',
    hnum]
  rw [jsRoundD_eq_floor, Dec10.toRat_mulInt, sizeTable_agrees]
  rfl

/-- Witness for C2, covering the claim's two examples. -/
theorem c2_size_normalizer_witness :
    parseSize "1.50 GiB" = some 1610612736 ∧ parseSize "6.10 GB" = some 6100000000 := by
  constructor
  · have h := c2_size_normalizer "1.50 GiB".data "1.50".data "GiB".data ⟨150, 2⟩ rfl rfl
    rw [parseSize, h, ← Dec10.toRat_mulInt, ← jsRoundD_eq_floor]
    decide
  · have h := c2_size_normalizer "6.10 GB".data "6.10".data "GB".data ⟨610, 2⟩ rfl rfl
    rw [parseSize, h, ← Dec10.toRat_mulInt, ← jsRoundD_eq_floor]
    decide

/-! ## C3: the duration normalizer -/

/-- C3: for every duration string that splits into alternating
(integer, unit-token) pairs, `parseDuration` returns the sum over pairs of
value times 3600000 / 60000 / 1000 / 1 according to the unit token's
recognized prefix (`min` checked before the bare `s` check), with unmatched
tokens contributing zero. -/
theorem c3_duration_normalizer (s : List Char) (ps : List (List Char × List Char))
    (hsplit : splitOnChar ' ' s = interleavePairs ps)
    (hints : ∀ p ∈ ps, (jsParseInt p.1).isSome) :
    parseDurationL s = some (claimDurSum ps) := by
  rw [parseDurationL, hsplit, durLoop_interleave ps 0 hints, zero_add]

/-- Witness for C3, covering the claim's example. -/
theorem c3_duration_normalizer_witness : parseDuration "1 h 45 min 30 s" = some 6330000 := by
  have h := c3_duration_normalizer "1 h 45 min 30 s".data
    [("1".data, "h".data), ("45".data, "min".data), ("30".data, "s".data)] rfl (by decide)
  rw [parseDuration, h]
  decide

/-! ## Structural lemmas about the line classifiers and the driver -/

theorem modifyIdx_length (f : α → α) : ∀ (n : Nat) (l : List α), (modifyIdx f n l).length = l.length
  | 0, [] => rfl
  | _ + 1, [] => rfl
  | 0, _ :: _ => rfl
  | n + 1, _ :: xs => congrArg Nat.succ (modifyIdx_length f n xs)

theorem modifyIdx_id (f : α → α) (hf : ∀ x, f x = x) :
    ∀ (n : Nat) (l : List α), modifyIdx f n l = l
  | 0, [] => rfl
  | _ + 1, [] => rfl
  | 0, x :: xs => by rw [modifyIdx, hf]
  | n + 1, x :: xs => by rw [modifyIdx, modifyIdx_id f hf n xs]

theorem andE {a b : Bool} (h : (a && b) = true) : a = true ∧ b = true := by
  simp only [Bool.and_eq_true] at h
  exact h

theorem startsWithL_cons (l : List Char) (c : Char) (cs : List Char)
    (h : startsWithL l (c :: cs) = true) : ∃ r, l = c :: r := by
  cases l with
  | nil => simp [startsWithL] at h
  | cons a r =>
    simp only [startsWithL, List.length_cons, List.take_succ_cons, decide_eq_true_eq,
      List.cons.injEq] at h
    exact ⟨r, by rw [h.1]⟩

/-- A section header line is never blank. -/
theorem sectionHeaderOf_not_blank (l : List Char) (nm : String)
    (h : sectionHeaderOf l = some nm) : l.all isWs = false := by
  rw [sectionHeaderOf] at h
  split_ifs at h with h1 h2 h3 h4 h5
  · obtain ⟨r, hr⟩ := startsWithL_cons l 'G' _ (andE h1).1
    rw [hr]; simp [isWs]
  · obtain ⟨r, hr⟩ := startsWithL_cons l 'V' _ (andE h2).1
    rw [hr]; simp [isWs]
  · obtain ⟨r, hr⟩ := startsWithL_cons l 'A' _ (andE h3).1
    rw [hr]; simp [isWs]
  · obtain ⟨r, hr⟩ := startsWithL_cons l 'T' _ (andE h4).1
    rw [hr]; simp [isWs]
  · obtain ⟨r, hr⟩ := startsWithL_cons l 'M' _ (andE h5).1
    rw [hr]; simp [isWs]

/-- The ordinal tail of a section header contains no colon. -/
theorem ordTail_no_colon (r : List Char) (h : ordTail r = true) : ':' ∉ r := by
  rcases r with _ | ⟨c1, _ | ⟨c2, ds⟩⟩
  · simp
  · simp [ordTail] at h
  · simp only [ordTail, Bool.and_eq_true, decide_eq_true_eq] at h
    obtain ⟨⟨⟨hc1, hc2⟩, _⟩, hds⟩ := h
    intro hm
    simp only [List.mem_cons] at hm
    rcases hm with hm | hm | hm
    · rw [hc1] at hm
      exact absurd hm (by decide)
    · rw [hc2] at hm
      exact absurd hm (by decide)
    · exact absurd (List.all_eq_true.mp hds _ hm) (by decide)

theorem no_colon_of_parts (l pre : List Char) (hs : startsWithL l pre = true)
    (hpre : ':' ∉ pre) (hdrop : ':' ∉ l.drop pre.length) : ':' ∉ l := by
  intro hm
  rw [← List.take_append_drop pre.length l] at hm
  simp only [startsWithL, decide_eq_true_eq] at hs
  rcases List.mem_append.mp hm with h | h
  · rw [hs] at h
    exact hpre h
  · exact hdrop h

/-- A section header line contains no colon. -/
theorem sectionHeaderOf_no_colon (l : List Char) (nm : String)
    (h : sectionHeaderOf l = some nm) : ':' ∉ l := by
  rw [sectionHeaderOf] at h
  split_ifs at h with h1 h2 h3 h4 h5
  · exact no_colon_of_parts l "General".data (andE h1).1 (by decide)
      (ordTail_no_colon _ (andE h1).2)
  · exact no_colon_of_parts l "Video".data (andE h2).1 (by decide)
      (ordTail_no_colon _ (andE h2).2)
  · exact no_colon_of_parts l "Audio".data (andE h3).1 (by decide)
      (ordTail_no_colon _ (andE h3).2)
  · exact no_colon_of_parts l "Text".data (andE h4).1 (by decide)
      (ordTail_no_colon _ (andE h4).2)
  · exact no_colon_of_parts l "Menu".data (andE h5).1 (by decide)
      (ordTail_no_colon _ (andE h5).2)

theorem mem_of_takeWhile_ne (p : Char → Bool) :
    ∀ l : List Char, (l.takeWhile p).length ≠ l.length → ∃ c ∈ l, p c = false := by
  intro l
  induction l with
  | nil => intro h; simp at h
  | cons a r ih =>
    intro h
    by_cases hp : p a
    · rw [List.takeWhile_cons_of_pos hp] at h
      simp only [List.length_cons] at h
      obtain ⟨c, hc, hcf⟩ := ih (fun he => h (by rw [he]))
      exact ⟨c, List.mem_cons_of_mem _ hc, hcf⟩
    · exact ⟨a, List.mem_cons_self a r, by simpa using hp⟩

/-- A matched key-value line contains a colon. -/
theorem kvSplitL_has_colon (l : List Char) (r : List Char × List Char)
    (h : kvSplitL l = some r) : ':' ∈ l := by
  rw [kvSplitL] at h
  split at h
  · exact absurd h (by simp)
  · next h1 =>
    obtain ⟨c, hc, hcf⟩ := mem_of_takeWhile_ne _ l h1
    have hcc : c = ':' := by simpa using hcf
    rw [← hcc]
    exact hc

/-- A blank line contains no colon. -/
theorem blank_no_colon (l : List Char) (h : l.all isWs = true) : ':' ∉ l := by
  intro hm
  exact absurd (List.all_eq_true.mp h _ hm) (by decide)

/-- A matched key-value line is not blank. -/
theorem kvSplitL_not_blank (l : List Char) (r : List Char × List Char)
    (h : kvSplitL l = some r) : l.all isWs = false := by
  cases hb : l.all isWs
  · rfl
  · exact absurd (kvSplitL_has_colon l r h) (blank_no_colon l hb)

/-- A matched key-value line is not a section header. -/
theorem kvSplitL_not_header (l : List Char) (r : List Char × List Char)
    (h : kvSplitL l = some r) : sectionHeaderOf l = none := by
  cases hh : sectionHeaderOf l with
  | none => rfl
  | some nm => exact absurd (kvSplitL_has_colon l r h) (sectionHeaderOf_no_colon l nm hh)

theorem blank_header_none (l : List Char) (hb : l.all isWs = true) : sectionHeaderOf l = none := by
  cases hh : sectionHeaderOf l with
  | none => rfl
  | some nm => rw [sectionHeaderOf_not_blank l nm hh] at hb; exact absurd hb (by simp)

/-! ## C4: one track per section-header occurrence -/

theorem processLine_video_length (st : ScanState) (l : List Char) :
    (processLine st l).result.video.length =
      st.result.video.length + (if sectionHeaderOf l = some "video" then 1 else 0) := by
  rw [processLine]
  by_cases hb : l.all isWs
  · rw [if_pos hb, blank_header_none l hb]
    simp
  · rw [if_neg hb]
    cases hh : sectionHeaderOf l with
    | none =>
      simp only []
      by_cases hm : st.currentSection = "menu"
      · rw [if_pos hm]
        cases hfc : findChapter l with
        | some r => simp
        | none => simp
      · rw [if_neg hm]
        cases hkv : kvSplitL l with
        | some kv =>
          simp only [applyKV]
          split_ifs <;> simp_all [modifyIdx_length]
        | none => simp
    | some nm =>
      by_cases hv : nm = "video"
      · subst hv
        simp
      · simp only [hv]
        split_ifs <;> simp_all

theorem processLine_audio_length (st : ScanState) (l : List Char) :
    (processLine st l).result.audio.length =
      st.result.audio.length + (if sectionHeaderOf l = some "audio" then 1 else 0) := by
  rw [processLine]
  by_cases hb : l.all isWs
  · rw [if_pos hb, blank_header_none l hb]
    simp
  · rw [if_neg hb]
    cases hh : sectionHeaderOf l with
    | none =>
      simp only []
      by_cases hm : st.currentSection = "menu"
      · rw [if_pos hm]
        cases hfc : findChapter l with
        | some r => simp
        | none => simp
      · rw [if_neg hm]
        cases hkv : kvSplitL l with
        | some kv =>
          simp only [applyKV]
          split_ifs <;> simp_all [modifyIdx_length]
        | none => simp
    | some nm =>
      by_cases hv : nm = "audio"
      · subst hv
        simp
      · simp only [hv]
        split_ifs <;> simp_all

theorem processLine_text_length (st : ScanState) (l : List Char) :
    (processLine st l).result.text.length =
      st.result.text.length + (if sectionHeaderOf l = some "text" then 1 else 0) := by
  rw [processLine]
  by_cases hb : l.all isWs
  · rw [if_pos hb, blank_header_none l hb]
    simp
  · rw [if_neg hb]
    cases hh : sectionHeaderOf l with
    | none =>
      simp only []
      by_cases hm : st.currentSection = "menu"
      · rw [if_pos hm]
        cases hfc : findChapter l with
        | some r => simp
        | none => simp
      · rw [if_neg hm]
        cases hkv : kvSplitL l with
        | some kv =>
          simp only [applyKV]
          split_ifs <;> simp_all [modifyIdx_length]
        | none => simp
    | some nm =>
      by_cases hv : nm = "text"
      · subst hv
        simp
      · simp only [hv]
        split_ifs <;> simp_all

theorem foldl_video_length (lines : List (List Char)) :
    ∀ st : ScanState, (List.foldl processLine st lines).result.video.length =
      st.result.video.length
        + lines.countP (fun l => decide (sectionHeaderOf l = some "video")) := by
  induction lines with
  | nil => intro st; simp
  | cons l rest ih =>
    intro st
    rw [List.foldl_cons, ih, List.countP_cons, processLine_video_length]
    by_cases h : sectionHeaderOf l = some "video" <;> simp [h] <;> ring

theorem foldl_audio_length (lines : List (List Char)) :
    ∀ st : ScanState, (List.foldl processLine st lines).result.audio.length =
      st.result.audio.length
        + lines.countP (fun l => decide (sectionHeaderOf l = some "audio")) := by
  induction lines with
  | nil => intro st; simp
  | cons l rest ih =>
    intro st
    rw [List.foldl_cons, ih, List.countP_cons, processLine_audio_length]
    by_cases h : sectionHeaderOf l = some "audio" <;> simp [h] <;> ring

theorem foldl_text_length (lines : List (List Char)) :
    ∀ st : ScanState, (List.foldl processLine st lines).result.text.length =
      st.result.text.length
        + lines.countP (fun l => decide (sectionHeaderOf l = some "text")) := by
  induction lines with
  | nil => intro st; simp
  | cons l rest ih =>
    intro st
    rw [List.foldl_cons, ih, List.countP_cons, processLine_text_length]
    by_cases h : sectionHeaderOf l = some "text" <;> simp [h] <;> ring

/-- C4: for every input text and each track-bearing section kind, the output
sequence has exactly one track record per line matching that section's
header pattern (headers are processed in line order, each appending one
empty record). -/
theorem c4_section_repetition (input : String) :
    (parseMediaInfo input).video.length
        = (splitOnChar '\n' input.data).countP
            (fun l => decide (sectionHeaderOf l = some "video")) ∧
    (parseMediaInfo input).audio.length
        = (splitOnChar '\n' input.data).countP
            (fun l => decide (sectionHeaderOf l = some "audio")) ∧
    (parseMediaInfo input).text.length
        = (splitOnChar '\n' input.data).countP
            (fun l => decide (sectionHeaderOf l = some "text")) := by
  refine ⟨?_, ?_, ?_⟩
  · rw [parseMediaInfo, parseLines, foldl_video_length]
    simp [initState]
  · rw [parseMediaInfo, parseLines, foldl_audio_length]
    simp [initState]
  · rw [parseMediaInfo, parseLines, foldl_text_length]
    simp [initState]

/-! ## C10: the general mapper never writes streamSize or frameCount -/

theorem generalMap_streamSize (k v : String) (t : GeneralTrack) :
    (generalMap k v t).streamSize = t.streamSize := by
  rw [generalMap]
  simp only [apply_ite GeneralTrack.streamSize, ite_self]

theorem generalMap_frameCount (k v : String) (t : GeneralTrack) :
    (generalMap k v t).frameCount = t.frameCount := by
  rw [generalMap]
  simp only [apply_ite GeneralTrack.frameCount, ite_self]

theorem generalMap_keeps (k v : String) (t : GeneralTrack) :
    (generalMap k v t).streamSize = t.streamSize ∧
    (generalMap k v t).frameCount = t.frameCount :=
  ⟨generalMap_streamSize k v t, generalMap_frameCount k v t⟩

theorem processLine_general_sentinels (st : ScanState) (l : List Char) :
    (processLine st l).result.general.streamSize = st.result.general.streamSize ∧
    (processLine st l).result.general.frameCount = st.result.general.frameCount := by
  rw [processLine]
  by_cases hb : l.all isWs
  · rw [if_pos hb]
    exact ⟨rfl, rfl⟩
  · rw [if_neg hb]
    cases hh : sectionHeaderOf l with
    | some nm =>
      simp only []
      split_ifs <;> exact ⟨rfl, rfl⟩
    | none =>
      by_cases hm : st.currentSection = "menu"
      · rw [if_pos hm]
        cases hfc : findChapter l with
        | some r =>
          obtain ⟨ts, g2⟩ := r
          exact ⟨rfl, rfl⟩
        | none => exact ⟨rfl, rfl⟩
      · rw [if_neg hm]
        cases hkv : kvSplitL l with
        | some kv =>
          obtain ⟨k, v⟩ := kv
          simp only [applyKV]
          split_ifs with hg
          · exact generalMap_keeps (String.mk k) (String.mk v) st.result.general
          all_goals exact ⟨rfl, rfl⟩
        | none => exact ⟨rfl, rfl⟩

theorem foldl_general_sentinels (lines : List (List Char)) :
    ∀ st : ScanState,
      (List.foldl processLine st lines).result.general.streamSize
          = st.result.general.streamSize ∧
      (List.foldl processLine st lines).result.general.frameCount
          = st.result.general.frameCount := by
  induction lines with
  | nil => intro st; exact ⟨rfl, rfl⟩
  | cons l rest ih =>
    intro st
    rw [List.foldl_cons]
    exact ⟨(ih _).1.trans (processLine_general_sentinels st l).1,
      (ih _).2.trans (processLine_general_sentinels st l).2⟩

/-- C10: the general record of the result never has `streamSize` or
`frameCount` populated: the general-section key mapper has no case that
assigns either field, so both stay at their initial unset value. -/
theorem c10_general_unreachable_fields (input : String) :
    (parseMediaInfo input).general.streamSize = none ∧
    (parseMediaInfo input).general.frameCount = none := by
  rw [parseMediaInfo, parseLines]
  have h := foldl_general_sentinels (splitOnChar '\n' input.data) initState
  exact ⟨h.1.trans rfl, h.2.trans rfl⟩

/-! ## C8: a blank line resets the section, making following lines inert -/

theorem processLine_blank (st : ScanState) (l : List Char) (h : l.all isWs = true) :
    processLine st l = { st with currentSection := "" } := by
  rw [processLine, if_pos h]

theorem processLine_unset (st : ScanState) (l : List Char)
    (hsec : st.currentSection = "") (hh : sectionHeaderOf l = none) :
    processLine st l = st := by
  rw [processLine]
  by_cases hb : l.all isWs
  · rw [if_pos hb, ← hsec]
  · rw [if_neg hb, hh]
    simp only []
    rw [if_neg (by rw [hsec]; decide)]
    cases hkv : kvSplitL l with
    | some kv =>
      obtain ⟨k, v⟩ := kv
      simp [applyKV, hsec]
    | none => rfl

theorem foldl_unset (mid : List (List Char)) :
    ∀ st : ScanState, st.currentSection = "" → (∀ m ∈ mid, sectionHeaderOf m = none) →
      List.foldl processLine st mid = st := by
  induction mid with
  | nil => intro st _ _; rfl
  | cons m rest ih =>
    intro st hsec hm
    rw [List.foldl_cons, processLine_unset st m hsec (hm m (List.mem_cons_self m rest))]
    exact ih st hsec (fun x hx => hm x (List.mem_cons_of_mem _ hx))

/-- C8: a blank (whitespace-only) line always resets the current section to
the unset state `""`, and every line between a blank line and the next
recognized section header (in particular every key-value line there) leaves
the parse result and the whole scan state unchanged. -/
theorem c8_blank_line_resets :
    (∀ (st : ScanState) (l : List Char), l.all isWs = true →
        processLine st l = { st with currentSection := "" }) ∧
    (∀ (pre mid post : List (List Char)) (bl : List Char),
        bl.all isWs = true → (∀ m ∈ mid, sectionHeaderOf m = none) →
        parseLines (pre ++ bl :: (mid ++ post)) = parseLines (pre ++ bl :: post)) := by
  constructor
  · exact processLine_blank
  · intro pre mid post bl hbl hmid
    simp only [parseLines, List.foldl_append, List.foldl_cons]
    rw [processLine_blank _ _ hbl, foldl_unset mid _ rfl hmid]

/-- Witness for C8: a `Duration` line after a blank line inside a General
block is ignored. -/
theorem c8_blank_line_resets_witness :
    parseLines ["General".data, " ".data, "Duration : 9 min".data]
      = parseLines ["General".data, " ".data] :=
  c8_blank_line_resets.2 ["General".data] ["Duration : 9 min".data] [] " ".data
    (by decide) (by decide)

/-! ## C5: unrecognized keys are inert -/

/-- The recognized key vocabulary of the general section, in source order. -/
def generalKeys : List String :=
  ["Unique ID", "Complete name", "Format", "Format version", "File size", "Duration",
   "Overall bit rate mode", "Overall bit rate", "Frame rate", "Encoded date",
   "Writing application", "Writing library", "Attachments"]

/-- The recognized key vocabulary of the video section, in source order. -/
def videoKeys : List String :=
  ["ID", "Format", "Format/Info", "Format profile", "Format settings",
   "Format settings, CABAC", "Format settings, Reference frames", "Codec ID", "Duration",
   "Bit rate mode", "Bit rate", "Maximum bit rate", "Width", "Height",
   "Display aspect ratio", "Frame rate mode", "Frame rate", "Color space",
   "Chroma subsampling", "Bit depth", "Scan type", "Bits/(Pixel*Frame)", "Stream size",
   "Default", "Forced"]

/-- The recognized key vocabulary of the audio section, in source order. -/
def audioKeys : List String :=
  ["ID", "Format", "Format settings", "Codec ID", "Duration", "Bit rate mode", "Bit rate",
   "Channel(s)", "Sampling rate", "Frame rate", "Bit depth", "Stream size", "Title",
   "Language", "Default", "Forced"]

/-- The recognized key vocabulary of the text section, in source order. -/
def textKeys : List String :=
  ["ID", "Format", "Codec ID", "Codec ID/Info", "Duration", "Bit rate", "Frame rate",
   "Count of elements", "Compression mode", "Stream size", "Title", "Language", "Default",
   "Forced"]

/-- The recognized key vocabulary of each section (empty for menu and for the
unset section, which dispatch no key-value pairs). -/
def sectionVocab (sec : String) : List String :=
  if sec = "general" then generalKeys
  else if sec = "video" then videoKeys
  else if sec = "audio" then audioKeys
  else if sec = "text" then textKeys
  else []

theorem generalMap_unknown (k v : String) (t : GeneralTrack) (h : k ∉ generalKeys) :
    generalMap k v t = t := by
  simp only [generalKeys, List.mem_cons, List.not_mem_nil, or_false, not_or] at h
  obtain ⟨n1, n2, n3, n4, n5, n6, n7, n8, n9, n10, n11, n12, n13⟩ := h
  rw [generalMap, if_neg n1, if_neg n2, if_neg n3, if_neg n4, if_neg n5, if_neg n6, if_neg n7,
    if_neg n8, if_neg n9, if_neg n10, if_neg n11, if_neg n12, if_neg n13]

theorem videoMap_unknown (k v : String) (t : VideoTrack) (h : k ∉ videoKeys) :
    videoMap k v t = t := by
  simp only [videoKeys, List.mem_cons, List.not_mem_nil, or_false, not_or] at h
  obtain ⟨n1, n2, n3, n4, n5, n6, n7, n8, n9, n10, n11, n12, n13, n14, n15, n16, n17, n18,
    n19, n20, n21, n22, n23, n24, n25⟩ := h
  rw [videoMap, if_neg n1, if_neg n2, if_neg n3, if_neg n4, if_neg n5, if_neg n6, if_neg n7,
    if_neg n8, if_neg n9, if_neg n10, if_neg n11, if_neg n12, if_neg n13, if_neg n14,
    if_neg n15, if_neg n16, if_neg n17, if_neg n18, if_neg n19, if_neg n20, if_neg n21,
    if_neg n22, if_neg n23, if_neg n24, if_neg n25]

theorem audioMap_unknown (k v : String) (t : AudioTrack) (h : k ∉ audioKeys) :
    audioMap k v t = t := by
  simp only [audioKeys, List.mem_cons, List.not_mem_nil, or_false, not_or] at h
  obtain ⟨n1, n2, n3, n4, n5, n6, n7, n8, n9, n10, n11, n12, n13, n14, n15, n16⟩ := h
  rw [audioMap, if_neg n1, if_neg n2, if_neg n3, if_neg n4, if_neg n5, if_neg n6, if_neg n7,
    if_neg n8, if_neg n9, if_neg n10, if_neg n11, if_neg n12, if_neg n13, if_neg n14,
    if_neg n15, if_neg n16]

theorem textMap_unknown (k v : String) (t : TextTrack) (h : k ∉ textKeys) :
    textMap k v t = t := by
  simp only [textKeys, List.mem_cons, List.not_mem_nil, or_false, not_or] at h
  obtain ⟨n1, n2, n3, n4, n5, n6, n7, n8, n9, n10, n11, n12, n13, n14⟩ := h
  rw [textMap, if_neg n1, if_neg n2, if_neg n3, if_neg n4, if_neg n5, if_neg n6, if_neg n7,
    if_neg n8, if_neg n9, if_neg n10, if_neg n11, if_neg n12, if_neg n13, if_neg n14]

/-- Dispatching a key outside the current section's vocabulary leaves the
scan state unchanged. -/
theorem applyKV_unknown (st : ScanState) (k v : String)
    (h : k ∉ sectionVocab st.currentSection) :
    applyKV st k v = st := by
  rw [applyKV]
  by_cases hg : st.currentSection = "general"
  · rw [if_pos hg, generalMap_unknown k v _ (by rw [hg] at h; simpa [sectionVocab] using h)]
  · rw [if_neg hg]
    by_cases hv : st.currentSection = "video"
    · by_cases hi : (0 : Int) ≤ st.trackIndex
      · rw [if_pos (by simp [hv, hi]),
          modifyIdx_id _ (fun t => videoMap_unknown k v t
            (by rw [hv] at h; simpa [sectionVocab] using h))]
      · rw [if_neg (by simp [hi]), if_neg (by simp [hi]), if_neg (by simp [hi])]
    · rw [if_neg (by simp [hv])]
      by_cases ha : st.currentSection = "audio"
      · by_cases hi : (0 : Int) ≤ st.trackIndex
        · rw [if_pos (by simp [ha, hi]),
            modifyIdx_id _ (fun t => audioMap_unknown k v t
              (by rw [ha] at h; simpa [sectionVocab] using h))]
        · rw [if_neg (by simp [hi]), if_neg (by simp [hi])]
      · rw [if_neg (by simp [ha])]
        by_cases ht : st.currentSection = "text"
        · by_cases hi : (0 : Int) ≤ st.trackIndex
          · rw [if_pos (by simp [ht, hi]),
              modifyIdx_id _ (fun t => textMap_unknown k v t
                (by rw [ht] at h; simpa [sectionVocab] using h))]
          · rw [if_neg (by simp [hi])]
        · rw [if_neg (by simp [ht])]

/-- A key-value line whose key is unknown in the current section is a
complete no-op (outside the Menu section, where key-value dispatch never
happens and only the chapter pattern matters). -/
theorem processLine_unknown_kv (st : ScanState) (l k v : List Char)
    (h1 : kvSplitL l = some (k, v))
    (h2 : String.mk k ∉ sectionVocab st.currentSection)
    (h3 : st.currentSection = "menu" → findChapter l = none) :
    processLine st l = st := by
  rw [processLine, if_neg (by rw [kvSplitL_not_blank l (k, v) h1]; simp),
    kvSplitL_not_header l (k, v) h1]
  simp only []
  by_cases hm : st.currentSection = "menu"
  · rw [if_pos hm, h3 hm]
  · rw [if_neg hm, h1]
    exact applyKV_unknown st (String.mk k) (String.mk v) h2

/-- C5 (amended): inserting a key-value line whose key is outside the
recognized vocabulary of the section in effect at that position leaves the
parse result unchanged, provided the line does not match the chapter
pattern when that section is Menu.  (Totality of the parser over arbitrary
strings is by construction of the embedding.) -/
theorem c5_unknown_key_inert (pre post : List (List Char)) (l k v : List Char)
    (h1 : kvSplitL l = some (k, v))
    (h2 : String.mk k ∉ sectionVocab (List.foldl processLine initState pre).currentSection)
    (h3 : (List.foldl processLine initState pre).currentSection = "menu" →
        findChapter l = none) :
    parseLines (pre ++ l :: post) = parseLines (pre ++ post) := by
  rw [parseLines, parseLines, List.foldl_append, List.foldl_append, List.foldl_cons,
    processLine_unknown_kv _ l k v h1 h2 h3]

/-- Counterexample to C5 as frozen: inside a Menu section, a key-value line
with an unrecognized key whose value embeds a chapter timestamp appends a
chapter, changing the parse result. -/
theorem c5_counterexample :
    kvSplitL "x : 00:00:00.000 : a:b".data
        = some ("x".data, "00:00:00.000 : a:b".data) ∧
    "x" ∉ sectionVocab "menu" ∧
    (parseMediaInfo "Menu\nx : 00:00:00.000 : a:b").menu.length = 1 ∧
    (parseMediaInfo "Menu").menu.length = 0 := by
  decide

/-- Witness for C5: an `UnknownKey : value` line inside a General block does
not change the parse result. -/
theorem c5_unknown_key_inert_witness :
    parseLines ["General".data, "UnknownKey : value".data, "Duration : 9 min".data]
      = parseLines ["General".data, "Duration : 9 min".data] :=
  c5_unknown_key_inert ["General".data] ["Duration : 9 min".data]
    "UnknownKey : value".data "UnknownKey".data "value".data (by decide) (by decide)
    (by decide)

/-! ## C6 and C7: the Menu chapter branch -/

/-- A line matched by the chapter pattern contains a colon. -/
theorem chapterAt_colon (l : List Char) (r : List Char × List Char)
    (h : chapterAt l = some r) : ':' ∈ l := by
  rcases l with _ | ⟨a1, _ | ⟨a2, _ | ⟨s1, _ | ⟨b1, _ | ⟨b2, _ | ⟨s2, _ | ⟨c1, _ | ⟨c2,
    _ | ⟨sep, _ | ⟨d1, _ | ⟨d2, _ | ⟨d3, rest⟩⟩⟩⟩⟩⟩⟩⟩⟩⟩⟩⟩
  · simp [chapterAt] at h
  · simp [chapterAt] at h
  · simp [chapterAt] at h
  · simp [chapterAt] at h
  · simp [chapterAt] at h
  · simp [chapterAt] at h
  · simp [chapterAt] at h
  · simp [chapterAt] at h
  · simp [chapterAt] at h
  · simp [chapterAt] at h
  · simp [chapterAt] at h
  · simp [chapterAt] at h
  · rw [chapterAt] at h
    split at h
    · next hcond =>
      have hs1 : s1 = ':' := by
        simp only [Bool.and_eq_true, decide_eq_true_eq] at hcond
        exact hcond.1.1.1.1.1.1.1.1.1.2
      rw [← hs1]
      exact List.mem_cons_of_mem _ (List.mem_cons_of_mem _ (List.mem_cons_self s1 _))
    · exact absurd h (by simp)

theorem findChapter_colon (l : List Char) (r : List Char × List Char)
    (h : findChapter l = some r) : ':' ∈ l := by
  induction l with
  | nil => rw [findChapter] at h; exact absurd h (by simp)
  | cons c rest ih =>
    rw [findChapter] at h
    cases hca : chapterAt (c :: rest) with
    | some x => exact chapterAt_colon _ x hca
    | none =>
      rw [hca] at h
      exact List.mem_cons_of_mem _ (ih h)

theorem colon_not_blank (l : List Char) (h : ':' ∈ l) : l.all isWs = false := by
  cases hb : l.all isWs
  · rfl
  · exact absurd h (blank_no_colon l hb)

/-- Inside the Menu section, a line matched by the chapter pattern appends
exactly the chapter built from the matched timestamp and from the trimmed
capture after the first colon of the tail. -/
theorem processLine_menu_chapter (st : ScanState) (l ts g2 : List Char)
    (hsec : st.currentSection = "menu") (hfc : findChapter l = some (ts, g2)) :
    processLine st l = { st with result := { st.result with
      menu := st.result.menu ++ [⟨chapterTimestamp ts, String.mk (trimChars g2)⟩] } } := by
  have hcol := findChapter_colon l _ hfc
  have hh : sectionHeaderOf l = none := by
    cases hh2 : sectionHeaderOf l with
    | none => rfl
    | some nm => exact absurd hcol (sectionHeaderOf_no_colon l nm hh2)
  rw [processLine, if_neg (by rw [colon_not_blank l hcol]; simp), hh]
  simp only []
  rw [if_pos hsec, hfc]

/-- The timestamp of a chapter whose matched timestamp splits into exactly
four integer components is `h*3600000 + m*60000 + s*1000 + ms`. -/
theorem chapterTimestamp_eq (ts a b c d : List Char) (A B C D : Int)
    (hsplit : splitOnP (fun ch => ch = ':' || ch = '.') ts = [a, b, c, d])
    (ha : jsParseInt a = some A) (hb : jsParseInt b = some B)
    (hc : jsParseInt c = some C) (hd : jsParseInt d = some D) :
    chapterTimestamp ts = some (A * 3600000 + B * 60000 + C * 1000 + D) := by
  rw [chapterTimestamp, hsplit]
  simp [ha, hb, hc, hd, jsiAdd, jsiMul]

/-- C7 (amended): a matching Menu line appends a Chapter whose timestamp is
hours*3600000 + minutes*60000 + seconds*1000 + milliseconds (when the four
timestamp components parse) and whose title is the text after the FIRST
colon following the timestamp separator, trimmed; the claim's example line
yields timestamp 1430000 and title `Chapter 5`. -/
theorem c7_chapter_fields :
    (∀ (st : ScanState) (l ts g2 : List Char),
        st.currentSection = "menu" → findChapter l = some (ts, g2) →
        processLine st l = { st with result := { st.result with
          menu := st.result.menu
            ++ [⟨chapterTimestamp ts, String.mk (trimChars g2)⟩] } }) ∧
    (∀ (ts a b c d : List Char) (A B C D : Int),
        splitOnP (fun ch => ch = ':' || ch = '.') ts = [a, b, c, d] →
        jsParseInt a = some A → jsParseInt b = some B →
        jsParseInt c = some C → jsParseInt d = some D →
        chapterTimestamp ts = some (A * 3600000 + B * 60000 + C * 1000 + D)) ∧
    (parseMediaInfo "Menu\n00:23:50.000 : en:Chapter 5").menu
      = [⟨some 1430000, "Chapter 5"⟩] :=
  ⟨processLine_menu_chapter, chapterTimestamp_eq, by decide⟩

/-- Counterexample to C7 as frozen: when the tail after the timestamp holds
more than one colon, the title is the text after the first colon of the
tail, not the text after the last colon of the matched line. -/
theorem c7_counterexample :
    (parseMediaInfo "Menu\n00:23:50.000 : en:Chapter: 5").menu
        = [⟨some 1430000, "Chapter: 5"⟩] ∧
    ("Chapter: 5" : String) ≠ "5" := by
  decide

/-- Witness for C7: the amended theorem applied at the claim's example. -/
theorem c7_chapter_fields_witness :
    processLine ⟨⟨{}, [], [], [], []⟩, "menu", -1⟩ "00:23:50.000 : en:Chapter 5".data
        = ⟨⟨{}, [], [], [], [⟨some 1430000, "Chapter 5"⟩]⟩, "menu", -1⟩ ∧
    chapterTimestamp "00:23:50.000".data = some 1430000 := by
  constructor
  · have h := c7_chapter_fields.1 ⟨⟨{}, [], [], [], []⟩, "menu", -1⟩
      "00:23:50.000 : en:Chapter 5".data "00:23:50.000".data "Chapter 5".data rfl (by decide)
    rw [h]
    decide
  · have h := c7_chapter_fields.2.1 "00:23:50.000".data "00".data "23".data "50".data
      "000".data 0 23 50 0 (by decide) (by decide) (by decide) (by decide) (by decide)
    rw [h]
    decide

/-- C6 (code bug): the chapter regex's unescaped `.` accepts any separator
character before the milliseconds, so a Menu line with separator `x` (not of
the claimed exact shape) still appends a chapter — with a NaN timestamp,
since the `[:.]` split then yields only three components. -/
theorem c6_wildcard_separator :
    (parseMediaInfo "Menu\n00:23:50x000 : en:Chapter 1").menu
      = [⟨none, "Chapter 1"⟩] := by
  decide

/-! ## C9: malformed recognized values -/

/-- C9 (amended): every normalizer-backed field is assigned unconditionally,
whatever the normalizer computes on the raw value (possibly the NaN
sentinel) — except the three `Stream size` cases, which first require the
value to contain a match of the extraction pattern and otherwise leave the
field unset. -/
theorem c9_best_effort_coercion :
    (∀ (v : String) (t : GeneralTrack),
        generalMap "File size" v t = { t with fileSize := some (parseSize v) } ∧
        generalMap "Duration" v t = { t with duration := some (parseDuration v) } ∧
        generalMap "Overall bit rate" v t
            = { t with overallBitRate := some (parseBitRate v) } ∧
        generalMap "Frame rate" v t = { t with frameRate := some (jsParseFloat v.data) }) ∧
    (∀ (v : String) (t : VideoTrack),
        videoMap "ID" v t = { t with id := some (jsParseInt v.data) } ∧
        videoMap "Duration" v t = { t with duration := some (parseDuration v) } ∧
        videoMap "Bit rate" v t = { t with bitRate := some (parseBitRate v) } ∧
        videoMap "Maximum bit rate" v t
            = { t with maximumBitRate := some (parseBitRate v) } ∧
        videoMap "Width" v t = { t with width := some (jsParseInt (removeWsL v.data)) } ∧
        videoMap "Height" v t = { t with height := some (jsParseInt (removeWsL v.data)) } ∧
        videoMap "Frame rate" v t = { t with frameRate := some (jsParseFloat v.data) } ∧
        videoMap "Bit depth" v t = { t with bitDepth := some (jsParseInt v.data) } ∧
        videoMap "Bits/(Pixel*Frame)" v t
            = { t with bitsPerPixelFrame := some (jsParseFloat v.data) } ∧
        videoMap "Stream size" v t
            = (match sizeExtract v.data with
               | some g => { t with streamSize := some (parseSizeL g) }
               | none => t)) ∧
    (∀ (v : String) (t : AudioTrack),
        audioMap "ID" v t = { t with id := some (jsParseInt v.data) } ∧
        audioMap "Duration" v t = { t with duration := some (parseDuration v) } ∧
        audioMap "Bit rate" v t = { t with bitRate := some (parseBitRate v) } ∧
        audioMap "Channel(s)" v t = { t with channels := some (jsParseInt v.data) } ∧
        audioMap "Sampling rate" v t = { t with samplingRate := some (parseFrequency v) } ∧
        audioMap "Frame rate" v t = { t with frameRate := some (jsParseFloat v.data) } ∧
        audioMap "Bit depth" v t = { t with bitDepth := some (jsParseInt v.data) } ∧
        audioMap "Stream size" v t
            = (match sizeExtract v.data with
               | some g => { t with streamSize := some (parseSizeL g) }
               | none => t)) ∧
    (∀ (v : String) (t : TextTrack),
        textMap "ID" v t = { t with id := some (jsParseInt v.data) } ∧
        textMap "Duration" v t = { t with duration := some (parseDuration v) } ∧
        textMap "Bit rate" v t = { t with bitRate := some (parseBitRate v) } ∧
        textMap "Frame rate" v t = { t with frameRate := some (jsParseFloat v.data) } ∧
        textMap "Count of elements" v t
            = { t with countOfElements := some (jsParseInt v.data) } ∧
        textMap "Stream size" v t
            = (match sizeExtract v.data with
               | some g => { t with streamSize := some (parseSizeL g) }
               | none => t)) :=
  ⟨fun _ _ => ⟨rfl, rfl, rfl, rfl⟩,
   fun _ _ => ⟨rfl, rfl, rfl, rfl, rfl, rfl, rfl, rfl, rfl, rfl⟩,
   fun _ _ => ⟨rfl, rfl, rfl, rfl, rfl, rfl, rfl, rfl⟩,
   fun _ _ => ⟨rfl, rfl, rfl, rfl, rfl, rfl⟩⟩

/-- Counterexample to C9 as frozen: a recognized `Stream size` key whose
value has no match of the extraction pattern leaves the field unset instead
of assigning the normalizer's output. -/
theorem c9_counterexample :
    ((parseMediaInfo "Video\nStream size : garbage").video.headD {}).streamSize = none ∧
    (some (parseSize "garbage") : Option JsInt) ≠ none := by
  decide

end MiParser
